import Mathlib

/-!
Verification development for the VideoGrabber acquisition-and-delivery
pipeline.  The TypeScript source is shallowly embedded: pure data
transformations become Lean functions over explicit data, the stateful
download drivers become pure functions of an "oracle" record that carries
the outcomes of the external subprocess and file-system effects, and
JavaScript-specific semantics (truthiness, stable `Array.prototype.sort`,
`Map` insertion order) are modelled by dedicated helpers.

Naming: namespace `P8` embeds the service iteration stored as
`src/unnamed/part_008` (second half, the gap-filling normalizer),
`P11` embeds `src/unnamed/part_011`, `P9` embeds `src/unnamed/part_009`,
and `YT` embeds `src/server/services/youtube.ts`.
-/

namespace VG

/-! ## JavaScript semantics helpers -/

/-- Truthiness of an optional string: `undefined`/`null` and `""` are falsy. -/
def truthyS : Option String → Bool
  | none => false
  | some s => !(s = "")

/-- JS `x || d` for an optional string (empty string is falsy). -/
def jsOrS (x : Option String) (d : String) : String :=
  match x with
  | none => d
  | some s => if s = "" then d else s

/-- JS `x || d` for an optional number (`0` is falsy). -/
def jsOrI (x : Option Int) (d : Int) : Int :=
  match x with
  | none => d
  | some n => if n = 0 then d else n

/-- JS `String.prototype.includes`: `listContains needle hay` decides whether
`needle` occurs as a contiguous substring of `hay`. -/
def listContains (needle : List Char) : List Char → Bool
  | [] => needle.isEmpty
  | c :: rest => needle.isPrefixOf (c :: rest) || listContains needle rest

/-- String wrapper for `listContains`: `includes hay needle` is JS
`hay.includes(needle)`. -/
def includes (hay needle : String) : Bool :=
  listContains needle.data hay.data

/-- JS `String.prototype.startsWith`: `startsWithJs s pre` decides whether
`pre` is a prefix of `s` (character-level, kernel-reducible). -/
def startsWithJs (s pre : String) : Bool :=
  pre.data.isPrefixOf s.data

/-- JS `parseInt` restricted to the call sites of this code base, where the
argument always begins with a decimal digit run ("2160p", "320", "0"):
the value of the leading digit run. -/
def jsParseInt (s : String) : Int :=
  ((s.data.takeWhile Char.isDigit).foldl (fun acc c => acc * 10 + (c.toNat - 48)) 0 : Nat)

/-- One step of the stable insertion used to embed `Array.prototype.sort`:
a later element `x` is placed before the first already-inserted element `y`
with `lt x y` (comparator negative), hence after every earlier element that
compares equal — exactly the stable-sort contract. -/
def insertLt {α : Type} (lt : α → α → Bool) (x : α) : List α → List α
  | [] => [x]
  | y :: ys => if lt x y then x :: y :: ys else y :: insertLt lt x ys

/-- Embedding of JS `Array.prototype.sort(cmp)` for a comparator that is a
total preorder, with `lt a b` meaning `cmp a b < 0`.  ES2019+ sorts are
stable, which this left-to-right insertion reproduces. -/
def jsSortBy {α : Type} (lt : α → α → Bool) (l : List α) : List α :=
  l.foldl (fun acc x => insertLt lt x acc) []

/-- First match of the regex `/\d+p/` attempted at the head of a character
list: a maximal digit run immediately followed by `p`. -/
def matchDigitsPAt (l : List Char) : Option String :=
  match l.takeWhile Char.isDigit, l.dropWhile Char.isDigit with
  | [], _ => none
  | ds, 'p' :: _ => some (String.mk (ds ++ ['p']))
  | _, _ => none

/-- Leftmost match of `/\d+p/` in a character list (JS `s.match(/\d+p/)?.[0]`). -/
def findDigitsP : List Char → Option String
  | [] => none
  | c :: rest => (matchDigitsPAt (c :: rest)).orElse (fun _ => findDigitsP rest)

/-- JS `parseInt(s.match(/\d+p/)?.[0] || "0")`, the height encoded in a
quality label. -/
def parseLabelHeight (s : String) : Int :=
  jsParseInt ((findDigitsP s.data).getD "0")

/-! ## Shared data model (shared/schema.ts) -/

/-- One entry of a `VideoInfo.formats` catalog (the `FormatVariant` of the
spec).  `formatId` is optional because the raw dump's `format_id` may be
absent.  Sizes and channel counts are the integers the code computes. -/
structure Format where
  formatId : Option String
  extension : String
  quality : String
  qualityLabel : String
  hasAudio : Bool
  hasVideo : Bool
  filesize : Int
  audioChannels : Int
deriving Repr, DecidableEq

/-- A raw encoding-variant descriptor as found in the yt-dlp JSON dump.
`none` models an absent (`undefined`) field. -/
structure RawFormat where
  format_id : Option String
  ext : Option String
  vcodec : Option String
  acodec : Option String
  format_note : Option String
  height : Option Int
  abr : Option Int
  filesize : Option Int
  filesize_approx : Option Int
  audio_channels : Option Int
deriving Repr, DecidableEq

/-- The deduplication key of `parseFormats`: the joined string
`hasVideo-hasAudio-qualityLabel-extension`. -/
def formatKey (f : Format) : String :=
  (if f.hasVideo then "1" else "0") ++ "-" ++ (if f.hasAudio then "1" else "0")
    ++ "-" ++ f.qualityLabel ++ "-" ++ f.extension

/-- The tuple the spec deduplicates on, as a proposition on two entries. -/
def sameTuple (a b : Format) : Prop :=
  a.hasVideo = b.hasVideo ∧ a.hasAudio = b.hasAudio ∧
    a.qualityLabel = b.qualityLabel ∧ a.extension = b.extension

instance (a b : Format) : Decidable (sameTuple a b) := by
  unfold sameTuple; infer_instance

/-- Boolean form of `sameTuple`, used as a `find?` predicate. -/
def sameTupleb (a b : Format) : Bool :=
  decide (sameTuple a b)

/-- The deduplication loop of `parseFormats`: keep a format when its key has
not been seen, first occurrence wins. -/
def dedupByKey : List Format → List String → List Format
  | [], _ => []
  | f :: rest, seen =>
    if formatKey f ∈ seen then dedupByKey rest seen
    else f :: dedupByKey rest (formatKey f :: seen)

/-! ## P8: the gap-filling normalizer of src/unnamed/part_008 -/

namespace P8

/-- The standard resolution ladder of part_008 (strings, as in the source). -/
def standardResolutions : List String :=
  ["2160p", "1440p", "1080p", "720p", "480p", "360p", "240p", "144p"]

/-- The standard audio bitrates of part_008. -/
def audioBitrates : List String :=
  ["320", "256", "192", "128"]

/-- Filter step: keep only MP4 entries whose vcodec is not the literal
string "none", and MP3 entries whose acodec is not "none" (an absent codec
field passes the strict `!==` comparison, as in JS). -/
def keepRaw (f : RawFormat) : Bool :=
  (f.ext == some "mp4" && !(f.vcodec == some "none"))
    || (f.ext == some "mp3" && !(f.acodec == some "none"))

/-- The quality suffix appended by height thresholds. -/
def qualitySuffix (height : Int) : String :=
  if height ≥ 2160 then " 4K"
  else if height ≥ 1440 then " 2K"
  else if height ≥ 1080 then " Full HD"
  else if height ≥ 720 then " HD"
  else ""

/-- Video label: nearest listed resolution whose string starts with the
height's digits, else raw height, plus audio marker and suffix. -/
def videoLabel (hasAudio : Bool) (height : Int) : String :=
  let resolutionLabel := standardResolutions.find? (fun res => startsWithJs res (toString height))
  "MP4 - " ++ (resolutionLabel.getD (toString height ++ "p"))
    ++ (if hasAudio then " with Audio" else " (Video Only)")
    ++ qualitySuffix height

/-- Audio label: the listed bitrate within 10 of the reported `abr`
(default 128), else the reported bitrate itself. -/
def audioLabel (f : RawFormat) : String :=
  let audioBitrate := jsOrI f.abr 128
  let closestBitrate :=
    (audioBitrates.find? (fun br => (jsParseInt br - audioBitrate).natAbs ≤ 10)).getD
      (toString audioBitrate)
  "MP3 - " ++ closestBitrate ++ "kbps"

/-- Map step of `parseFormats`: raw descriptor to catalog entry. -/
def mapRaw (f : RawFormat) : Format :=
  let hasVideo := truthyS f.vcodec && !(f.vcodec == some "none")
  let hasAudio := truthyS f.acodec && !(f.acodec == some "none")
  let height := jsOrI f.height 0
  let qualityLabel :=
    if hasVideo && height > 0 then videoLabel hasAudio height
    else if !hasVideo && hasAudio && f.ext == some "mp3" then audioLabel f
    else jsOrS f.format_note "unknown"
  { formatId := f.format_id
    extension := jsOrS f.ext "unknown"
    quality := jsOrS f.format_note "unknown"
    qualityLabel := qualityLabel
    hasAudio := hasAudio
    hasVideo := hasVideo
    filesize := jsOrI f.filesize (jsOrI f.filesize_approx
      (if hasVideo then height * height * 60 else 3000000))
    audioChannels := jsOrI f.audio_channels 2 }

/-- Sort key height: the parsed `\d+p` of the label for video entries, 0 for
the rest. -/
def sortHeight (f : Format) : Int :=
  if f.hasVideo then parseLabelHeight f.qualityLabel else 0

/-- Comparator of the candidate sort (descending height, then descending
filesize), as the strict "comes first" relation. -/
def sortLt (a b : Format) : Bool :=
  if sortHeight a ≠ sortHeight b then sortHeight b < sortHeight a
  else b.filesize < a.filesize

/-- The sorted candidate list: filter, map, then stable sort. -/
def sortedCandidates (raw : List RawFormat) : List Format :=
  jsSortBy sortLt ((raw.filter keepRaw).map mapRaw)

/-- The deduplicated catalog (`uniqueFormats` in the source). -/
def uniqueFormats (raw : List RawFormat) : List Format :=
  dedupByKey (sortedCandidates raw) []

/-- `uniqueFormats` restricted to video-with-audio entries. -/
def videoWithAudioOf (raw : List RawFormat) : List Format :=
  (uniqueFormats raw).filter (fun f => f.hasVideo && f.hasAudio)

/-- `uniqueFormats` restricted to video-only entries. -/
def videoOnlyOf (raw : List RawFormat) : List Format :=
  (uniqueFormats raw).filter (fun f => f.hasVideo && !f.hasAudio)

/-- `uniqueFormats` restricted to audio-only entries. -/
def audioOnlyOf (raw : List RawFormat) : List Format :=
  (uniqueFormats raw).filter (fun f => !f.hasVideo && f.hasAudio)

/-- The with-audio placeholder label for a standard resolution string. -/
def vaLabel (res : String) (height : Int) : String :=
  "MP4 - " ++ res ++ " with Audio" ++ qualitySuffix height

/-- The video-only placeholder label for a standard resolution string. -/
def voLabel (res : String) (height : Int) : String :=
  "MP4 - " ++ res ++ " (Video Only)" ++ qualitySuffix height

/-- Gap-fill pick for one video-with-audio tier: the first real entry whose
label height parses to the tier, else a placeholder cloned from the first
with-audio entry (or, failing that, the first video-only entry); nothing
when no video entry exists at all. -/
def pickVA (vwa vo : List Format) (res : String) : Option Format :=
  match vwa.find? (fun f => f.hasVideo && f.hasAudio
      && parseLabelHeight f.qualityLabel == jsParseInt res) with
  | some existing => some existing
  | none =>
    match vwa.head?.orElse (fun _ => vo.head?) with
    | some baseFormat =>
      some { baseFormat with
        formatId := some ("placeholder-" ++ res ++ "-audio")
        qualityLabel := vaLabel res (jsParseInt res)
        filesize := jsParseInt res * jsParseInt res * 60
        hasAudio := true }
    | none => none

/-- Gap-fill pick for one video-only tier (symmetric to `pickVA`). -/
def pickVO (vwa vo : List Format) (res : String) : Option Format :=
  match vo.find? (fun f => f.hasVideo && !f.hasAudio
      && parseLabelHeight f.qualityLabel == jsParseInt res) with
  | some existing => some existing
  | none =>
    match vo.head?.orElse (fun _ => vwa.head?) with
    | some baseFormat =>
      some { baseFormat with
        formatId := some ("placeholder-" ++ res ++ "-video")
        qualityLabel := voLabel res (jsParseInt res)
        filesize := jsParseInt res * jsParseInt res * 60
        hasAudio := false }
    | none => none

/-- Gap-fill pick for one audio bitrate: the first real audio-only entry
whose label contains "NNNkbps", else a placeholder whose size and channel
count are cloned from the first audio-only entry (defaults 3000000 and 2). -/
def pickAudio (ao : List Format) (bitrate : String) : Format :=
  match ao.find? (fun f => includes f.qualityLabel (bitrate ++ "kbps")) with
  | some existing => existing
  | none =>
    { formatId := some ("placeholder-mp3-" ++ bitrate)
      extension := "mp3"
      quality := bitrate ++ "kbps"
      qualityLabel := "MP3 - " ++ bitrate ++ "kbps"
      hasAudio := true
      hasVideo := false
      filesize := match ao.head? with | some f => f.filesize | none => 3000000
      audioChannels := match ao.head? with | some f => f.audioChannels | none => 2 }

/-- part_008 `parseFormats`: filter, map, sort, deduplicate, then gap-fill
every standard with-audio tier, every video-only tier and every audio
bitrate, in that order.  The three sequential push loops of the source are
rendered as three mapped segments. -/
def parseFormats (raw : List RawFormat) : List Format :=
  (standardResolutions.filterMap (pickVA (videoWithAudioOf raw) (videoOnlyOf raw)))
    ++ (standardResolutions.filterMap (pickVO (videoWithAudioOf raw) (videoOnlyOf raw)))
    ++ (audioBitrates.map (pickAudio (audioOnlyOf raw)))

end P8

/-! ## Download request schema (shared/schema.ts, src/unnamed/part_012) -/

/-- A validated `DownloadOptions` value (the zod schema's output type). -/
structure DownloadOptions where
  videoId : String
  formatId : String
  start : Option Nat
  «end» : Option Nat
  subtitle : Option String
  subtitleFormat : Option String
  downloadAudio : Option Bool
  downloadCaptions : Option Bool
  isPlaylist : Option Bool
  playlistItems : Option (List String)
deriving Repr, DecidableEq

/-- A request body before validation; `none` is an absent field. -/
structure RawDownloadBody where
  videoId : Option String
  formatId : Option String
  start : Option Nat
  «end» : Option Nat
  subtitle : Option String
  subtitleFormat : Option String
  downloadAudio : Option Bool
  downloadCaptions : Option Bool
  isPlaylist : Option Bool
  playlistItems : Option (List String)
deriving Repr, DecidableEq

/-- The zod `downloadOptionsSchema.parse`: `videoId` and `formatId` are
required strings, every other field is optional, and no constraint relates
`start` and `end` (the schema is `z.number().optional()` for both, with no
refinement).  JS numbers are modelled on naturals here; only presence and
rendering matter to the embedded code paths. -/
def downloadOptionsSchemaParse (r : RawDownloadBody) : Option DownloadOptions :=
  match r.videoId, r.formatId with
  | some v, some f =>
    some { videoId := v, formatId := f, start := r.start, «end» := r.«end»,
           subtitle := r.subtitle, subtitleFormat := r.subtitleFormat,
           downloadAudio := r.downloadAudio, downloadCaptions := r.downloadCaptions,
           isPlaylist := r.isPlaylist, playlistItems := r.playlistItems }
  | _, _ => none

/-! ## YT: the download engine of src/server/services/youtube.ts -/

namespace YT

/-- The argument vector built by `downloadUsingDirectMethod` (youtube.ts):
static resilience flags, then the trim clip instruction when both bounds
are present, then the subtitle instructions when both subtitle fields are
truthy, then the resource URL. -/
def downloadUsingDirectMethodArgs (url formatId : String) (start «end» : Option Nat)
    (subtitle subtitleFormat : Option String) : List String :=
  (["--no-playlist", "-f", formatId, "--merge-output-format", "mp4",
    "-o", "%(title)s.%(ext)s",
    "--force-ipv4", "--geo-bypass", "--no-check-certificates", "--prefer-insecure",
    "--no-warnings",
    "--extractor-retries", "10", "--fragment-retries", "10", "--retry-sleep", "5",
    "--throttled-rate", "2M", "--buffer-size", "1M", "--socket-timeout", "120",
    "--no-abort-on-error", "--no-check-formats", "--prefer-free-formats",
    "--add-header", "Accept-Language:en-US,en;q=0.9",
    "--add-header",
    "Accept:text/html,application/xhtml+xml,application/xml;q=0.9,image/avif,image/webp,*/*;q=0.8",
    "--add-header", "Accept-Encoding:gzip, deflate, br",
    "--add-header",
    "User-Agent:Mozilla/5.0 (Windows NT 10.0; Win64; x64) AppleWebKit/537.36 (KHTML, like Gecko) Chrome/121.0.0.0 Safari/537.36",
    "--user-agent",
    "Mozilla/5.0 (Windows NT 10.0; Win64; x64) AppleWebKit/537.36 (KHTML, like Gecko) Chrome/121.0.0.0 Safari/537.36",
    "--extractor-args", "youtube:player_client=android"]
  ++ (match start, «end» with
      | some s, some e => ["--download-sections", "*" ++ toString s ++ "-" ++ toString e]
      | _, _ => [])
  ++ (if truthyS subtitle && truthyS subtitleFormat then
        ["--write-subs", "--sub-langs", subtitle.getD "", "--sub-format",
         subtitleFormat.getD ""]
      else []))
  ++ [url]

/-- The argument vector built by `downloadUsingFileMethod` (youtube.ts). -/
def downloadUsingFileMethodArgs (url formatId tempFilePath : String)
    (start «end» : Option Nat) (subtitle subtitleFormat : Option String) : List String :=
  (["--no-playlist", "-f", formatId, "--merge-output-format", "mp4", "-o", tempFilePath,
    "--force-ipv4", "--geo-bypass", "--ignore-errors", "--no-check-certificates",
    "--prefer-insecure", "--no-warnings",
    "--extractor-retries", "5", "--fragment-retries", "5", "--retry-sleep", "2",
    "--throttled-rate", "100K", "--buffer-size", "16K", "--no-part",
    "--socket-timeout", "30",
    "--add-header", "Accept-Language:en-US,en;q=0.9",
    "--add-header", "Accept:text/html,application/xhtml+xml,application/xml;q=0.9,*/*;q=0.8",
    "--add-header", "Accept-Encoding:gzip, deflate",
    "--add-header",
    "User-Agent:Mozilla/5.0 (X11; Linux x86_64) AppleWebKit/537.36 (KHTML, like Gecko) Chrome/122.0.0.0 Safari/537.36",
    "--user-agent",
    "Mozilla/5.0 (X11; Linux x86_64) AppleWebKit/537.36 (KHTML, like Gecko) Chrome/122.0.0.0 Safari/537.36",
    "--extractor-args", "youtube:player_client=android,web;include_live_dash=1"]
  ++ (match start, «end» with
      | some s, some e => ["--download-sections", "*" ++ toString s ++ "-" ++ toString e]
      | _, _ => [])
  ++ (if truthyS subtitle && truthyS subtitleFormat then
        ["--write-subs", "--sub-langs", subtitle.getD "", "--sub-format",
         subtitleFormat.getD ""]
      else []))
  ++ [url]

/-- Outcomes of the external effects of one single-video request: the
direct-method process exit code and stdout byte count, its accumulated
stderr text, and the state of the temporary file after the file-method
process together with whether reading it back succeeds. -/
structure StratOracle where
  directCode : Int
  directBytes : Nat
  directErr : String
  fileExistsAfter : Bool
  fileSizeAfter : Nat
  fileReadOk : Bool
deriving Repr, DecidableEq

/-- The two download strategies, in the fixed order they are tried. -/
inductive Strategy
  | direct
  | fileBuffered
deriving Repr, DecidableEq

/-- Events observable on the returned PassThrough stream. -/
inductive StreamEv
  | dataEv (name : String)
  | errorEv (msg : String)
  | endEv
deriving Repr, DecidableEq

/-- The request's outcome classification. -/
inductive Outcome
  | streamed
  | errorEmitted (msg : String)
deriving Repr, DecidableEq

/-- Error classification of `downloadUsingDirectMethod` (youtube.ts). -/
def classifyDirectError (errorMessage : String) : String :=
  if includes errorMessage "HTTP Error 403: Forbidden" then
    "YouTube is preventing this download due to restrictions"
  else if includes errorMessage "This video is unavailable" then
    "This video is unavailable or private"
  else if includes errorMessage "Video unavailable" then
    "This video is unavailable or has been removed"
  else if includes errorMessage "Sign in to confirm your age" then
    "This video requires age verification and cannot be downloaded"
  else "Download failed"

/-- The direct method rejects when the process exits non-zero or produced
no stdout bytes (`code !== 0 || !downloadStarted`). -/
def directMethodFails (o : StratOracle) : Bool :=
  !(o.directCode == 0) || (o.directBytes == 0)

/-- The file method rejects when the temporary file is missing or empty
(`fs.existsSync && size > 0` fails), or reading it back errors. -/
def fileMethodFails (o : StratOracle) : Bool :=
  !(o.fileExistsAfter && decide (0 < o.fileSizeAfter)) || !o.fileReadOk

/-- The observable result of one single-video `downloadVideo` call. -/
structure DVRun where
  attempts : List Strategy
  spawns : List (List String)
  events : List StreamEv
  outcome : Outcome
  tempFileRemains : Bool
deriving Repr, DecidableEq

/-- youtube.ts `downloadVideo`, single-video path: try the direct strategy;
only on its failure try the file strategy; on failure of both, emit one
terminal error event followed by end of stream.  No validation of the
format id against any catalog is performed.  `tempFileRemains` records
whether the file method's temporary file is still on disk at the end: the
file method unlinks it only on the successful read path, so a failed
attempt leaves it behind whenever it exists (for example as an empty
file). -/
def downloadVideoRun (opts : DownloadOptions) (tempFilePath : String)
    (o : StratOracle) : DVRun :=
  if directMethodFails o then
    if fileMethodFails o then
      { attempts := [.direct, .fileBuffered],
        spawns := [downloadUsingDirectMethodArgs
            ("https://www.youtube.com/watch?v=" ++ opts.videoId) opts.formatId
            opts.start opts.«end» opts.subtitle opts.subtitleFormat,
          downloadUsingFileMethodArgs
            ("https://www.youtube.com/watch?v=" ++ opts.videoId) opts.formatId
            tempFilePath opts.start opts.«end» opts.subtitle opts.subtitleFormat],
        events := [.errorEv
            "YouTube is preventing this download. Try a different format or video.",
          .endEv],
        outcome := .errorEmitted
          "YouTube is preventing this download. Try a different format or video.",
        tempFileRemains := o.fileExistsAfter }
    else
      { attempts := [.direct, .fileBuffered],
        spawns := [downloadUsingDirectMethodArgs
            ("https://www.youtube.com/watch?v=" ++ opts.videoId) opts.formatId
            opts.start opts.«end» opts.subtitle opts.subtitleFormat,
          downloadUsingFileMethodArgs
            ("https://www.youtube.com/watch?v=" ++ opts.videoId) opts.formatId
            tempFilePath opts.start opts.«end» opts.subtitle opts.subtitleFormat],
        events := [.dataEv tempFilePath, .endEv],
        outcome := .streamed,
        tempFileRemains := false }
  else
    { attempts := [.direct],
      spawns := [downloadUsingDirectMethodArgs
          ("https://www.youtube.com/watch?v=" ++ opts.videoId) opts.formatId
          opts.start opts.«end» opts.subtitle opts.subtitleFormat],
      events := [.dataEv ("https://www.youtube.com/watch?v=" ++ opts.videoId), .endEv],
      outcome := .streamed,
      tempFileRemains := false }

/-- Outcomes of the external effects of one playlist request. -/
structure PlaylistOracle where
  batchCode : Int
  files : List String
  zipSpawnErr : Bool
  zipCode : Int
deriving Repr, DecidableEq

/-- The observable result of one `downloadPlaylist` call. -/
structure PlRun where
  batchSpawn : List String
  zipSpawn : Option (List String)
  events : List StreamEv
  uncaughtThrow : Bool
deriving Repr, DecidableEq

/-- The batch acquisition call's argument vector (identical in youtube.ts
and part_011): one yt-dlp invocation over all member URLs with an output
template inside the working directory. -/
def playlistBatchArgs (formatId tempDir : String) (items : List String) : List String :=
  ["-f", formatId, "--force-ipv4", "--geo-bypass", "--no-check-certificates",
   "--ignore-errors", "--output", tempDir ++ "/%(title)s.%(ext)s"]
  ++ items.map (fun id => "https://www.youtube.com/watch?v=" ++ id)

/-- youtube.ts `downloadPlaylist`: the batch exit code is ignored and the
decision is made on the files found in the working directory — zero files
fail, one file is streamed raw, two or more are zipped.  A non-zero zip
exit raises inside the zip close callback, outside every try/catch, so no
event reaches the stream and the exception is uncaught. -/
def downloadPlaylistRun (formatId tempDir zipPath : String) (items : List String)
    (o : PlaylistOracle) : PlRun :=
  match o.files with
  | [] =>
    { batchSpawn := playlistBatchArgs formatId tempDir items, zipSpawn := none,
      events := [.errorEv "Failed to process playlist download", .endEv],
      uncaughtThrow := false }
  | [f] =>
    { batchSpawn := playlistBatchArgs formatId tempDir items, zipSpawn := none,
      events := [.dataEv (tempDir ++ "/" ++ f), .endEv], uncaughtThrow := false }
  | f1 :: f2 :: rest =>
    if o.zipSpawnErr then
      { batchSpawn := playlistBatchArgs formatId tempDir items,
        zipSpawn := some ("-j" :: zipPath
          :: (f1 :: f2 :: rest).map (fun f => tempDir ++ "/" ++ f)),
        events := [.errorEv "Failed to create playlist zip file", .endEv],
        uncaughtThrow := false }
    else if o.zipCode == 0 then
      { batchSpawn := playlistBatchArgs formatId tempDir items,
        zipSpawn := some ("-j" :: zipPath
          :: (f1 :: f2 :: rest).map (fun f => tempDir ++ "/" ++ f)),
        events := [.dataEv zipPath, .endEv], uncaughtThrow := false }
    else
      { batchSpawn := playlistBatchArgs formatId tempDir items,
        zipSpawn := some ("-j" :: zipPath
          :: (f1 :: f2 :: rest).map (fun f => tempDir ++ "/" ++ f)),
        events := [], uncaughtThrow := true }

end YT

/-! ## P11: the download engine of src/unnamed/part_011 -/

namespace P11

/-- Error classification of part_011 `downloadVideo`'s catch block. -/
def classifyMsg (m : String) : String :=
  if includes m "HTTP Error 403" then "YouTube restrictions prevent this download"
  else if includes m "Video unavailable" then "This video is unavailable or private"
  else if includes m "Sign in to confirm your age" then "This video requires age verification"
  else "Failed to download video. Please try a different format or video."

/-- part_011 `downloadVideo`'s playlist-branch guard
(`isPlaylist && playlistItems && playlistItems.length > 0`). -/
def isPlaylistRequest (opts : DownloadOptions) : Bool :=
  (opts.isPlaylist.getD false) && (match opts.playlistItems with
    | some l => decide (0 < l.length)
    | none => false)

/-- The direct-method argument vector of part_011 (the conditional trim and
subtitle arguments are pushed after the URL in this iteration). -/
def directMethodArgs (url formatId : String) (start «end» : Option Nat)
    (subtitle subtitleFormat : Option String) : List String :=
  (["--no-playlist", "-f", formatId, "-o", "-",
    "--force-ipv4", "--geo-bypass", "--no-check-certificates", "--no-warnings",
    "--extractor-retries", "10", "--fragment-retries", "20", "--retry-sleep", "1",
    "--throttled-rate", "10M", "--buffer-size", "16M", "--socket-timeout", "180",
    "--concurrent-fragments", "5",
    "--add-header", "Accept-Language:en-US,en;q=0.9",
    "--add-header",
    "Accept:text/html,application/xhtml+xml,application/xml;q=0.9,image/webp,*/*;q=0.8",
    "--add-header", "Accept-Encoding:gzip, deflate, br",
    "--add-header", "Referer:https://www.youtube.com",
    "--user-agent",
    "Mozilla/5.0 (Windows NT 10.0; Win64; x64) AppleWebKit/537.36 (KHTML, like Gecko) Chrome/122.0.0.0 Safari/537.36",
    "--extractor-args", "youtube:player_client=android,web", url]
  ++ (match start, «end» with
      | some s, some e => ["--download-sections", "*" ++ toString s ++ "-" ++ toString e]
      | _, _ => []))
  ++ (if truthyS subtitle && truthyS subtitleFormat then
        ["--write-subs", "--sub-langs", subtitle.getD "", "--sub-format",
         subtitleFormat.getD ""]
      else [])

/-- The file-method argument vector of part_011. -/
def fileMethodArgs (url formatId tempFilePath : String) (start «end» : Option Nat)
    (subtitle subtitleFormat : Option String) : List String :=
  (["--no-playlist", "-f", formatId, "--merge-output-format", "mp4", "-o", tempFilePath,
    "--force-ipv4", "--geo-bypass", "--ignore-errors", "--no-check-certificates",
    "--no-warnings",
    "--extractor-retries", "10", "--fragment-retries", "20", "--retry-sleep", "1",
    "--throttled-rate", "100K", "--buffer-size", "16K", url]
  ++ (match start, «end» with
      | some s, some e => ["--download-sections", "*" ++ toString s ++ "-" ++ toString e]
      | _, _ => []))
  ++ (if truthyS subtitle && truthyS subtitleFormat then
        ["--write-subs", "--sub-langs", subtitle.getD "", "--sub-format",
         subtitleFormat.getD ""]
      else [])

/-- Outcomes of the external effects of one part_011 single-video request. -/
structure P11Oracle where
  directCode : Int
  fileCode : Int
  fileErrText : String
  fileExistsAfter : Bool
  fileSizeAfter : Nat
deriving Repr, DecidableEq

/-- The observable result of one part_011 single-video `downloadVideo`
call: which download subprocesses were spawned, the outcome, and whether
the attempt's temporary file survives. -/
structure SingleRun where
  downloadSpawns : List (List String)
  outcome : YT.Outcome
  tempFileRemains : Bool
deriving Repr, DecidableEq

/-- part_011 `downloadUsingFileMethod` in isolation: a non-zero exit
rejects (the catch unlinks the temporary file), a missing or empty file
throws (the catch unlinks), and the success path unlinks after streaming —
so the temporary file never survives, on any exit path.  The second
component records whether the temporary file remains. -/
def fileMethodRun (o : P11Oracle) : YT.Outcome × Bool :=
  if !(o.fileCode == 0) then
    (.errorEmitted ("File download failed: " ++ o.fileErrText), false)
  else if !(o.fileExistsAfter && decide (0 < o.fileSizeAfter)) then
    (.errorEmitted "File download failed: No data downloaded to temporary file", false)
  else (.streamed, false)

/-- part_011 `downloadVideo`, single-video path: `getVideoInfo`'s catalog
is consulted first — a format id that is absent, or carries the
"placeholder-" or "fallback-" prefix, throws before any download strategy
runs, and the outer catch turns the throw into an error event with zero
download subprocesses spawned.  Otherwise the direct strategy is tried,
then the file strategy. -/
def downloadVideoSingleRun (catalog : List Format) (opts : DownloadOptions)
    (tempFilePath : String) (o : P11Oracle) : SingleRun :=
  if !(catalog.find? (fun f => f.formatId == some opts.formatId)).isSome
      || startsWithJs opts.formatId "placeholder-"
      || startsWithJs opts.formatId "fallback-" then
    { downloadSpawns := [],
      outcome := .errorEmitted (classifyMsg ("Invalid or placeholder formatId: "
        ++ opts.formatId ++ ". Please select a valid format.")),
      tempFileRemains := false }
  else if o.directCode == 0 then
    { downloadSpawns := [directMethodArgs
        ("https://www.youtube.com/watch?v=" ++ opts.videoId) opts.formatId
        opts.start opts.«end» opts.subtitle opts.subtitleFormat],
      outcome := .streamed, tempFileRemains := false }
  else
    { downloadSpawns := [directMethodArgs
        ("https://www.youtube.com/watch?v=" ++ opts.videoId) opts.formatId
        opts.start opts.«end» opts.subtitle opts.subtitleFormat,
      fileMethodArgs ("https://www.youtube.com/watch?v=" ++ opts.videoId)
        opts.formatId tempFilePath opts.start opts.«end» opts.subtitle
        opts.subtitleFormat],
      outcome := match fileMethodRun o with
        | (.streamed, _) => .streamed
        | (.errorEmitted m, _) => .errorEmitted (classifyMsg m),
      tempFileRemains := (fileMethodRun o).2 }

/-- part_011 `downloadPlaylist`: every failure path — non-zero batch exit,
empty working directory, zip spawn error or non-zero zip exit — is inside
the try/catch and surfaces as one error event followed by end of stream;
the promise always fulfills with the stream. -/
def downloadPlaylistRun (formatId tempDir zipPath : String) (items : List String)
    (o : YT.PlaylistOracle) : YT.PlRun :=
  if !(o.batchCode == 0) then
    { batchSpawn := YT.playlistBatchArgs formatId tempDir items, zipSpawn := none,
      events := [.errorEv "Failed to process playlist download", .endEv],
      uncaughtThrow := false }
  else
    match o.files with
    | [] =>
      { batchSpawn := YT.playlistBatchArgs formatId tempDir items, zipSpawn := none,
        events := [.errorEv "Failed to process playlist download", .endEv],
        uncaughtThrow := false }
    | [f] =>
      { batchSpawn := YT.playlistBatchArgs formatId tempDir items, zipSpawn := none,
        events := [.dataEv (tempDir ++ "/" ++ f), .endEv], uncaughtThrow := false }
    | f1 :: f2 :: rest =>
      if o.zipSpawnErr || !(o.zipCode == 0) then
        { batchSpawn := YT.playlistBatchArgs formatId tempDir items,
          zipSpawn := some ("-j" :: zipPath
            :: (f1 :: f2 :: rest).map (fun f => tempDir ++ "/" ++ f)),
          events := [.errorEv "Failed to process playlist download", .endEv],
          uncaughtThrow := false }
      else
        { batchSpawn := YT.playlistBatchArgs formatId tempDir items,
          zipSpawn := some ("-j" :: zipPath
            :: (f1 :: f2 :: rest).map (fun f => tempDir ++ "/" ++ f)),
          events := [.dataEv zipPath, .endEv], uncaughtThrow := false }

end P11

/-! ## SimpleCache: the in-memory cache of src/unnamed/part_008 (lines 6-43) -/

/-- JS `Map.prototype.set` on an insertion-ordered association list with
unique keys: update in place when the key exists (keeping its insertion
position), else append at the end.  Values carry their absolute expiry. -/
def mapSet {α : Type} (k : String) (v : α × Nat) :
    List (String × α × Nat) → List (String × α × Nat)
  | [] => [(k, v)]
  | entry :: rest => if entry.1 = k then (k, v) :: rest else entry :: mapSet k v rest

/-- JS `Map.prototype.get`. -/
def mapGet {α : Type} (k : String) (l : List (String × α × Nat)) : Option (α × Nat) :=
  (l.find? (fun entry => entry.1 == k)).map (fun entry => entry.2)

/-- JS `Map.prototype.delete` under the unique-keys invariant: remove the
first (and only) entry carrying the key. -/
def mapDelete {α : Type} (k : String) :
    List (String × α × Nat) → List (String × α × Nat)
  | [] => []
  | entry :: rest => if entry.1 = k then rest else entry :: mapDelete k rest

/-- The `SimpleCache` of part_008: a capacity-bounded, TTL-expiring
key-value store over a `Map` that iterates in insertion order. -/
structure SimpleCache (α : Type) where
  cache : List (String × α × Nat)
  maxSize : Nat

/-- `SimpleCache.set`: when at capacity, delete the first key the `Map`
iterator yields (the oldest-inserted entry; a no-op on an empty map), then
store the value with expiry `now + ttl`.  `Date.now()` is the explicit
`now` argument. -/
def SimpleCache.set {α : Type} (c : SimpleCache α) (key : String) (value : α)
    (ttl : Nat) (now : Nat) : SimpleCache α :=
  if c.maxSize ≤ c.cache.length then
    match c.cache.head? with
    | some oldest =>
      { c with cache := mapSet key (value, now + ttl) (mapDelete oldest.1 c.cache) }
    | none => { c with cache := mapSet key (value, now + ttl) c.cache }
  else { c with cache := mapSet key (value, now + ttl) c.cache }

/-- `SimpleCache.get`: a missing key is a miss; an entry whose expiry has
passed (`expires < now`) is deleted and reported as a miss; otherwise the
stored value is returned.  The second component is the post-read state. -/
def SimpleCache.get {α : Type} (c : SimpleCache α) (key : String) (now : Nat) :
    Option α × SimpleCache α :=
  match mapGet key c.cache with
  | none => (none, c)
  | some (v, expires) =>
    if expires < now then (none, { c with cache := mapDelete key c.cache })
    else (some v, c)

/-! ## Progress channel: executeYtDlp and getDownloadStream of part_008 -/

/-- State threaded through one attempt's progress handling: the throttle
timestamp of `executeYtDlp` (`lastProgressUpdate`), the last forwarded
percent of `getDownloadStream` (`lastProgress`, initially 0), and the
events written to the subscriber stream so far, as (wall time, percent)
pairs. -/
structure ProgressState where
  lastPU : Nat
  lastProgress : ℚ
  emits : List (Nat × ℚ)
deriving Repr, DecidableEq

/-- One stdout chunk observed at wall time `t`, with `parsed` the percent
extracted by the source's two progress regexes (`none` when neither
pattern matches; the rate and ETA strings ride along unchanged and are
omitted here; the IEEE `parseFloat` values are carried as exact rationals
— none of the proved properties depends on rounding).  The handler opens
the 500ms gate (`now - lastProgressUpdate > 500`, natural subtraction as
in JS for non-decreasing clocks), updates the throttle timestamp, then
forwards the parsed percent through `getDownloadStream`'s guard
(`progress - lastProgress >= 1 || progress === 100`), which appends an
emission and advances `lastProgress`. -/
def progressChunkStep (s : ProgressState) (t : Nat) (parsed : Option ℚ) : ProgressState :=
  if 500 < t - s.lastPU then
    match parsed with
    | some p =>
      if 1 ≤ p - s.lastProgress ∨ p = 100 then
        { lastPU := t, lastProgress := p, emits := s.emits ++ [(t, p)] }
      else { s with lastPU := t }
    | none => { s with lastPU := t }
  else s

/-- The chunk fold of one attempt, starting at spawn time `t0`.  The
initial `progressCallback(0, ...)` of `executeYtDlp` is swallowed by the
forwarding guard (`0 - 0 >= 1` and `0 === 100` both fail), leaving no
emission. -/
def runAttemptState (t0 : Nat) (chunks : List (Nat × Option ℚ)) : ProgressState :=
  chunks.foldl (fun s c => progressChunkStep s c.1 c.2) ⟨t0, 0, []⟩

/-- The emissions of one attempt: the chunk-driven emissions plus, when the
process exits 0, the unconditional final `progressCallback(100, ...)` at
close time `tc` (always forwarded since `progress === 100`). -/
def runAttempt (t0 : Nat) (chunks : List (Nat × Option ℚ)) (tc : Nat) (code : Int) :
    List (Nat × ℚ) :=
  if code = 0 then (runAttemptState t0 chunks).emits ++ [(tc, 100)]
  else (runAttemptState t0 chunks).emits

/-- Invariant preserved by the progress fold: emissions are spaced more
than 500ms apart and non-decreasing in percent, their times are bounded by
the throttle timestamp, their percents by `lastProgress`, and
`lastProgress` stays within 100 while parsed percents do. -/
def ProgressInv (s : ProgressState) : Prop :=
  List.Chain' (fun a b => a.1 + 500 < b.1) s.emits
  ∧ List.Chain' (fun a b : Nat × ℚ => a.2 ≤ b.2) s.emits
  ∧ (∀ e ∈ s.emits, e.1 ≤ s.lastPU)
  ∧ (∀ e ∈ s.emits, e.2 ≤ s.lastProgress)
  ∧ s.lastProgress ≤ 100

/-! ## Concrete sample inputs used by counterexamples and witnesses -/

/-- A raw descriptor with MP4 container, an absent vcodec (which passes the
filter) and a format note naming two standard bitrates: its catalog entry
matches two gap-fill bitrate searches. -/
def rawBadAudio : RawFormat :=
  { format_id := some "f1", ext := some "mp4", vcodec := none, acodec := some "aac",
    format_note := some "320kbps 256kbps", height := none, abr := none,
    filesize := some 5000, filesize_approx := none, audio_channels := none }

/-- A plain 128kbps MP3 raw descriptor. -/
def rawMp3 : RawFormat :=
  { format_id := some "140", ext := some "mp3", vcodec := some "none", acodec := some "mp3",
    format_note := some "128kbps", height := none, abr := some 128,
    filesize := some 4000000, filesize_approx := none, audio_channels := some 2 }

/-- A plain 720p MP4 raw descriptor with both codecs. -/
def rawVid720 : RawFormat :=
  { format_id := some "22", ext := some "mp4", vcodec := some "avc1", acodec := some "mp4a",
    format_note := some "720p", height := some 720, abr := none,
    filesize := some 9000000, filesize_approx := none, audio_channels := some 2 }

/-- A single-video request that selects the synthesized 128kbps audio
placeholder id. -/
def phOpts : DownloadOptions :=
  { videoId := "dQw4w9WgXcQ", formatId := "placeholder-mp3-128", start := none,
    «end» := none, subtitle := none, subtitleFormat := none, downloadAudio := none,
    downloadCaptions := none, isPlaylist := none, playlistItems := none }

/-- A single-video request that selects the synthesized 720p with-audio
placeholder id. -/
def phOpts720 : DownloadOptions :=
  { videoId := "dQw4w9WgXcQ", formatId := "placeholder-720p-audio", start := none,
    «end» := none, subtitle := none, subtitleFormat := none, downloadAudio := none,
    downloadCaptions := none, isPlaylist := none, playlistItems := none }

/-- Effects of a request whose direct strategy succeeds. -/
def okOracle : YT.StratOracle :=
  { directCode := 0, directBytes := 1024, directErr := "",
    fileExistsAfter := false, fileSizeAfter := 0, fileReadOk := true }

/-- Effects of a request where the direct strategy produces nothing and the
file strategy leaves an empty temporary file. -/
def zeroByteOracle : YT.StratOracle :=
  { directCode := 1, directBytes := 0, directErr := "",
    fileExistsAfter := true, fileSizeAfter := 0, fileReadOk := true }

/-- A request body with an inverted trim range (end 5 before start 10). -/
def invertedTrimBody : RawDownloadBody :=
  { videoId := some "dQw4w9WgXcQ", formatId := some "22", start := some 10,
    «end» := some 5, subtitle := none, subtitleFormat := none, downloadAudio := none,
    downloadCaptions := none, isPlaylist := none, playlistItems := none }

/-- The validated options of `invertedTrimBody`. -/
def invertedTrimOpts : DownloadOptions :=
  { videoId := "dQw4w9WgXcQ", formatId := "22", start := some 10, «end» := some 5,
    subtitle := none, subtitleFormat := none, downloadAudio := none,
    downloadCaptions := none, isPlaylist := none, playlistItems := none }

/-- Effects of a playlist request whose batch call left two files but whose
zip utility exits non-zero. -/
def zipFailOracle : YT.PlaylistOracle :=
  { batchCode := 0, files := ["a.mp4", "b.mp4"], zipSpawnErr := false, zipCode := 1 }

/-- Effects of a playlist request whose batch call left two files and whose
zip utility succeeds. -/
def twoFilesOracle : YT.PlaylistOracle :=
  { batchCode := 0, files := ["a.mp4", "b.mp4"], zipSpawnErr := false, zipCode := 0 }

/-- A catalog holding a single placeholder entry. -/
def phCatalog : List Format :=
  [{ formatId := some "placeholder-720p-audio", extension := "mp4", quality := "720p",
     qualityLabel := "MP4 - 720p with Audio HD", hasAudio := true, hasVideo := true,
     filesize := 31104000, audioChannels := 2 }]

/-- Effects of a part_011 request with both strategies healthy. -/
def p11Oracle : P11.P11Oracle :=
  { directCode := 0, fileCode := 0, fileErrText := "", fileExistsAfter := true,
    fileSizeAfter := 100 }

/-- A two-entry cache at capacity. -/
def cacheEx : SimpleCache Nat :=
  { cache := [("a", 1, 1000), ("b", 2, 2000)], maxSize := 2 }

/-! ## Theorems -/

/-- Equal deduplication tuples yield equal deduplication key strings. -/
theorem sameTuple_key {a b : Format} (h : sameTuple a b) : formatKey a = formatKey b := by
  obtain ⟨h1, h2, h3, h4⟩ := h
  simp [formatKey, h1, h2, h3, h4]

/-- Every survivor of the deduplication loop has a key outside the seen set. -/
theorem dedup_key_notin_seen (l : List Format) (seen : List String) :
    ∀ f ∈ dedupByKey l seen, formatKey f ∉ seen := by
  induction l generalizing seen with
  | nil => intro f hf; simp [dedupByKey] at hf
  | cons g rest ih =>
    intro f hf
    by_cases hg : formatKey g ∈ seen
    · rw [dedupByKey, if_pos hg] at hf
      exact ih seen f hf
    · rw [dedupByKey, if_neg hg] at hf
      rcases List.mem_cons.mp hf with rfl | hf2
      · exact hg
      · have h2 := ih _ f hf2
        intro hmem
        exact h2 (List.mem_cons_of_mem _ hmem)

/-- The deduplication loop yields pairwise-distinct keys. -/
theorem dedup_pairwise_keys (l : List Format) (seen : List String) :
    List.Pairwise (fun a b => formatKey a ≠ formatKey b) (dedupByKey l seen) := by
  induction l generalizing seen with
  | nil => simp [dedupByKey]
  | cons g rest ih =>
    by_cases hg : formatKey g ∈ seen
    · rw [dedupByKey, if_pos hg]
      exact ih seen
    · rw [dedupByKey, if_neg hg]
      refine List.Pairwise.cons ?_ (ih _)
      intro b hb he
      have h2 := dedup_key_notin_seen rest (formatKey g :: seen) b hb
      exact h2 (he ▸ List.mem_cons_self _ _)

/-- Every survivor of the deduplication loop is the first element of the
input with its key. -/
theorem dedup_mem_find (l : List Format) (seen : List String) :
    ∀ f ∈ dedupByKey l seen, l.find? (fun g => formatKey g == formatKey f) = some f := by
  induction l generalizing seen with
  | nil => intro f hf; simp [dedupByKey] at hf
  | cons g rest ih =>
    intro f hf
    by_cases hg : formatKey g ∈ seen
    · rw [dedupByKey, if_pos hg] at hf
      have hfn := dedup_key_notin_seen rest seen f hf
      have hfalse : (formatKey g == formatKey f) = false := by
        rw [beq_eq_false_iff_ne]
        intro he
        exact hfn (he ▸ hg)
      simp only [List.find?, hfalse]
      exact ih seen f hf
    · rw [dedupByKey, if_neg hg] at hf
      rcases List.mem_cons.mp hf with rfl | hf2
      · simp [List.find?]
      · have hfn := dedup_key_notin_seen rest (formatKey g :: seen) f hf2
        have hfalse : (formatKey g == formatKey f) = false := by
          rw [beq_eq_false_iff_ne]
          intro he
          exact hfn (he ▸ List.mem_cons_self _ _)
        simp only [List.find?, hfalse]
        exact ih _ f hf2

/-- Every input whose key is unseen is represented in the deduplicated list. -/
theorem dedup_covers (l : List Format) (seen : List String) :
    ∀ c ∈ l, formatKey c ∉ seen → ∃ f ∈ dedupByKey l seen, formatKey f = formatKey c := by
  induction l generalizing seen with
  | nil => intro c hc; simp at hc
  | cons g rest ih =>
    intro c hc hcs
    by_cases hg : formatKey g ∈ seen
    · rw [dedupByKey, if_pos hg]
      rcases List.mem_cons.mp hc with rfl | hc2
      · exact absurd hg hcs
      · exact ih seen c hc2 hcs
    · rw [dedupByKey, if_neg hg]
      rcases List.mem_cons.mp hc with rfl | hc2
      · exact ⟨c, List.mem_cons_self _ _, rfl⟩
      · by_cases hck : formatKey c = formatKey g
        · exact ⟨g, List.mem_cons_self _ _, hck.symm⟩
        · have hnot : formatKey c ∉ formatKey g :: seen := by
            intro h
            rcases List.mem_cons.mp h with h1 | h2
            exacts [hck h1, hcs h2]
          obtain ⟨f, hf1, hf2⟩ := ih _ c hc2 hnot
          exact ⟨f, List.mem_cons_of_mem _ hf1, hf2⟩

/-- Specializing a successful `find?` to a stronger predicate satisfied by
the found element does not change the result. -/
theorem find?_of_imp {α : Type} {p q : α → Bool} (l : List α) (a : α)
    (h1 : l.find? p = some a) (h2 : ∀ x, q x = true → p x = true) (h3 : q a = true) :
    l.find? q = some a := by
  induction l with
  | nil => simp at h1
  | cons x xs ih =>
    by_cases hq : q x = true
    · have hp := h2 x hq
      rw [List.find?_cons_of_pos _ hp] at h1
      rw [List.find?_cons_of_pos _ hq]
      exact h1
    · by_cases hp : p x = true
      · rw [List.find?_cons_of_pos _ hp] at h1
        cases h1
        exact absurd h3 hq
      · rw [List.find?_cons_of_neg _ hp] at h1
        rw [List.find?_cons_of_neg _ hq]
        exact ih h1

/-- The with-audio placeholder label of every standard tier parses back to
that tier's height. -/
theorem vaLabel_parse : ∀ res ∈ P8.standardResolutions,
    parseLabelHeight (P8.vaLabel res (jsParseInt res)) = jsParseInt res := by decide

/-- The video-only placeholder label of every standard tier parses back to
that tier's height. -/
theorem voLabel_parse : ∀ res ∈ P8.standardResolutions,
    parseLabelHeight (P8.voLabel res (jsParseInt res)) = jsParseInt res := by decide

/-- The audio placeholder label of every standard bitrate contains the
bitrate marker the gap-fill search looks for. -/
theorem audioLabel_includes : ∀ b ∈ P8.audioBitrates,
    includes ("MP3 - " ++ b ++ "kbps") (b ++ "kbps") = true := by decide

/-- Members of the with-audio slice carry both flags. -/
theorem mem_videoWithAudioOf {raw : List RawFormat} {f : Format}
    (hf : f ∈ P8.videoWithAudioOf raw) : f.hasVideo = true ∧ f.hasAudio = true := by
  have h2 := (List.mem_filter.mp hf).2
  simpa [Bool.and_eq_true] using h2

/-- Members of the video-only slice have video and no audio. -/
theorem mem_videoOnlyOf {raw : List RawFormat} {f : Format}
    (hf : f ∈ P8.videoOnlyOf raw) : f.hasVideo = true ∧ f.hasAudio = false := by
  have h2 := (List.mem_filter.mp hf).2
  simp only [Bool.and_eq_true, Bool.not_eq_true'] at h2
  exact h2

/-- Members of the audio-only slice have audio and no video. -/
theorem mem_audioOnlyOf {raw : List RawFormat} {f : Format}
    (hf : f ∈ P8.audioOnlyOf raw) : f.hasVideo = false ∧ f.hasAudio = true := by
  have h2 := (List.mem_filter.mp hf).2
  simp only [Bool.and_eq_true, Bool.not_eq_true'] at h2
  exact h2

/-- When some video entry exists, the with-audio base-format lookup
succeeds with a video-flagged entry. -/
theorem vaBase_exists {raw : List RawFormat}
    (hbase : P8.videoWithAudioOf raw ≠ [] ∨ P8.videoOnlyOf raw ≠ []) :
    ∃ b, (P8.videoWithAudioOf raw).head?.orElse (fun _ => (P8.videoOnlyOf raw).head?) = some b
      ∧ b.hasVideo = true := by
  cases hv : P8.videoWithAudioOf raw with
  | cons b rest =>
    refine ⟨b, by simp, ?_⟩
    exact (mem_videoWithAudioOf (hv ▸ List.mem_cons_self _ _)).1
  | nil =>
    cases ho : P8.videoOnlyOf raw with
    | cons b rest =>
      refine ⟨b, by simp, ?_⟩
      exact (mem_videoOnlyOf (ho ▸ List.mem_cons_self _ _)).1
    | nil =>
      rcases hbase with h | h
      exacts [absurd hv h, absurd ho h]

/-- When some video entry exists, the video-only base-format lookup
succeeds with a video-flagged entry. -/
theorem voBase_exists {raw : List RawFormat}
    (hbase : P8.videoWithAudioOf raw ≠ [] ∨ P8.videoOnlyOf raw ≠ []) :
    ∃ b, (P8.videoOnlyOf raw).head?.orElse (fun _ => (P8.videoWithAudioOf raw).head?) = some b
      ∧ b.hasVideo = true := by
  cases ho : P8.videoOnlyOf raw with
  | cons b rest =>
    refine ⟨b, by simp, ?_⟩
    exact (mem_videoOnlyOf (ho ▸ List.mem_cons_self _ _)).1
  | nil =>
    cases hv : P8.videoWithAudioOf raw with
    | cons b rest =>
      refine ⟨b, by simp, ?_⟩
      exact (mem_videoWithAudioOf (hv ▸ List.mem_cons_self _ _)).1
    | nil =>
      rcases hbase with h | h
      exacts [absurd hv h, absurd ho h]

/-- A with-audio pick lands in the gap-filled output. -/
theorem pickVA_mem {raw : List RawFormat} {res : String} {e : Format}
    (hres : res ∈ P8.standardResolutions)
    (hpick : P8.pickVA (P8.videoWithAudioOf raw) (P8.videoOnlyOf raw) res = some e) :
    e ∈ P8.parseFormats raw := by
  exact List.mem_append_left _ (List.mem_append_left _
    (List.mem_filterMap.mpr ⟨res, hres, hpick⟩))

/-- A video-only pick lands in the gap-filled output. -/
theorem pickVO_mem {raw : List RawFormat} {res : String} {e : Format}
    (hres : res ∈ P8.standardResolutions)
    (hpick : P8.pickVO (P8.videoWithAudioOf raw) (P8.videoOnlyOf raw) res = some e) :
    e ∈ P8.parseFormats raw := by
  unfold P8.parseFormats
  rw [List.append_assoc]
  exact List.mem_append_right _ (List.mem_append_left _
    (List.mem_filterMap.mpr ⟨res, hres, hpick⟩))

/-- An audio pick lands in the gap-filled output. -/
theorem pickAudio_mem {raw : List RawFormat} {b : String}
    (hb : b ∈ P8.audioBitrates) :
    P8.pickAudio (P8.audioOnlyOf raw) b ∈ P8.parseFormats raw := by
  exact List.mem_append_right _ (List.mem_map_of_mem _ hb)

/-- C2 (amended): for every raw format list, the deduplicated catalog the
part_008 normalizer builds before gap-filling contains no two entries
sharing the tuple (hasVideo, hasAudio, qualityLabel, extension); each of
its entries is the first occurrence of its tuple among the candidates
sorted by descending resolution then descending filesize; and every
candidate's deduplication key is represented by some surviving entry. -/
theorem C2_dedup_unique_first (raw : List RawFormat) :
    List.Pairwise (fun a b => ¬ sameTuple a b) (P8.uniqueFormats raw)
    ∧ (∀ e ∈ P8.uniqueFormats raw,
        (P8.sortedCandidates raw).find? (fun c => sameTupleb c e) = some e)
    ∧ (∀ c ∈ P8.sortedCandidates raw,
        ∃ e ∈ P8.uniqueFormats raw, formatKey e = formatKey c) := by
  refine ⟨?_, ?_, ?_⟩
  · have h := dedup_pairwise_keys (P8.sortedCandidates raw) []
    exact h.imp (fun hne hst => hne (sameTuple_key hst))
  · intro e he
    have h1 := dedup_mem_find (P8.sortedCandidates raw) [] e he
    refine find?_of_imp _ _ h1 ?_ ?_
    · intro x hx
      have hst : sameTuple x e := of_decide_eq_true hx
      exact beq_iff_eq.mpr (sameTuple_key hst)
    · exact decide_eq_true ⟨rfl, rfl, rfl, rfl⟩
  · intro c hc
    exact dedup_covers _ [] c hc (by simp)

/-- C2 counterexample: on the raw list `[rawBadAudio]` the normalizer's
actual output (after gap-filling, which pushes the same real audio variant
once for the 320kbps search and once for the 256kbps search because its
label contains both markers) holds two entries sharing the deduplication
tuple, so the claim fails on the full normalizer output. -/
theorem C2_counterexample :
    ¬ List.Pairwise (fun a b => ¬ sameTuple a b) (P8.parseFormats [rawBadAudio]) := by
  decide

/-- C2 witness: the single candidate of the raw list `[rawMp3]` survives
deduplication and is the first occurrence of its tuple. -/
theorem C2_witness :
    P8.mapRaw rawMp3 ∈ P8.uniqueFormats [rawMp3]
    ∧ (P8.sortedCandidates [rawMp3]).find? (fun c => sameTupleb c (P8.mapRaw rawMp3))
        = some (P8.mapRaw rawMp3) := by
  have h := C2_dedup_unique_first [rawMp3]
  exact ⟨by decide, h.2.1 (P8.mapRaw rawMp3) (by decide)⟩

/-- C3 (amended): for every raw format list, the gap-filled catalog
always contains, for every standard audio bitrate, an audio-only entry
whose label names that bitrate — also on video-free lists — and whenever
no real audio variant names the bitrate, that entry is the synthesized
placeholder whose size is cloned from the first real audio-only variant
(3000000 when none exists), not a duration-based estimate.  Whenever at
least one video entry survives deduplication, the catalog additionally
contains, for every standard resolution tier, a video-with-audio entry
and a video-only entry whose label parses to that tier, and a tier no
real with-audio variant satisfies is covered by the synthesized
placeholder with id "placeholder-RES-audio" and estimated size
height * height * 60. -/
theorem C3_gap_fill (raw : List RawFormat) :
    (∀ b ∈ P8.audioBitrates,
      ∃ e ∈ P8.parseFormats raw, e.hasVideo = false ∧ e.hasAudio = true ∧
        includes e.qualityLabel (b ++ "kbps") = true)
    ∧ (∀ b ∈ P8.audioBitrates,
      (P8.audioOnlyOf raw).find? (fun f => includes f.qualityLabel (b ++ "kbps")) = none →
      ∃ e ∈ P8.parseFormats raw,
        e.formatId = some ("placeholder-mp3-" ++ b) ∧
        e.filesize = (match (P8.audioOnlyOf raw).head? with
          | some f => f.filesize
          | none => 3000000))
    ∧ ((P8.videoWithAudioOf raw ≠ [] ∨ P8.videoOnlyOf raw ≠ []) →
      (∀ res ∈ P8.standardResolutions,
        ∃ e ∈ P8.parseFormats raw, e.hasVideo = true ∧ e.hasAudio = true ∧
          parseLabelHeight e.qualityLabel = jsParseInt res)
      ∧ (∀ res ∈ P8.standardResolutions,
        ∃ e ∈ P8.parseFormats raw, e.hasVideo = true ∧ e.hasAudio = false ∧
          parseLabelHeight e.qualityLabel = jsParseInt res)
      ∧ (∀ res ∈ P8.standardResolutions,
        (P8.videoWithAudioOf raw).find? (fun f => f.hasVideo && f.hasAudio
            && parseLabelHeight f.qualityLabel == jsParseInt res) = none →
        ∃ e ∈ P8.parseFormats raw,
          e.formatId = some ("placeholder-" ++ res ++ "-audio") ∧
          e.filesize = jsParseInt res * jsParseInt res * 60)) := by
  refine ⟨?_, ?_, ?_⟩
  · intro b hb
    cases hfind : (P8.audioOnlyOf raw).find?
        (fun f => includes f.qualityLabel (b ++ "kbps")) with
    | some existing =>
      have hpick : P8.pickAudio (P8.audioOnlyOf raw) b = existing := by
        unfold P8.pickAudio
        rw [hfind]
      have hmem := List.mem_of_find?_eq_some hfind
      obtain ⟨h1, h2⟩ := mem_audioOnlyOf hmem
      have hinc := List.find?_some hfind
      refine ⟨existing, ?_, h1, h2, hinc⟩
      have := @pickAudio_mem raw b hb
      rwa [hpick] at this
    | none =>
      have hpick : P8.pickAudio (P8.audioOnlyOf raw) b
          = { formatId := some ("placeholder-mp3-" ++ b), extension := "mp3",
              quality := b ++ "kbps", qualityLabel := "MP3 - " ++ b ++ "kbps",
              hasAudio := true, hasVideo := false,
              filesize := match (P8.audioOnlyOf raw).head? with
                | some f => f.filesize | none => 3000000,
              audioChannels := match (P8.audioOnlyOf raw).head? with
                | some f => f.audioChannels | none => 2 } := by
        unfold P8.pickAudio
        rw [hfind]
      refine ⟨P8.pickAudio (P8.audioOnlyOf raw) b, @pickAudio_mem raw b hb, ?_, ?_, ?_⟩
      · rw [hpick]
      · rw [hpick]
      · rw [hpick]
        exact audioLabel_includes b hb
  · intro b hb hfind
    have hpick : P8.pickAudio (P8.audioOnlyOf raw) b
        = { formatId := some ("placeholder-mp3-" ++ b), extension := "mp3",
            quality := b ++ "kbps", qualityLabel := "MP3 - " ++ b ++ "kbps",
            hasAudio := true, hasVideo := false,
            filesize := match (P8.audioOnlyOf raw).head? with
              | some f => f.filesize | none => 3000000,
            audioChannels := match (P8.audioOnlyOf raw).head? with
              | some f => f.audioChannels | none => 2 } := by
      unfold P8.pickAudio
      rw [hfind]
    refine ⟨P8.pickAudio (P8.audioOnlyOf raw) b, @pickAudio_mem raw b hb, ?_, ?_⟩
    · rw [hpick]
    · rw [hpick]
  · intro hbase
    refine ⟨?_, ?_, ?_⟩
    · intro res hres
      cases hfind : (P8.videoWithAudioOf raw).find? (fun f => f.hasVideo && f.hasAudio
          && parseLabelHeight f.qualityLabel == jsParseInt res) with
      | some existing =>
        have hpick : P8.pickVA (P8.videoWithAudioOf raw) (P8.videoOnlyOf raw) res
            = some existing := by
          unfold P8.pickVA
          rw [hfind]
        have hp := List.find?_some hfind
        simp only [Bool.and_eq_true, beq_iff_eq] at hp
        exact ⟨existing, pickVA_mem hres hpick, hp.1.1, hp.1.2, hp.2⟩
      | none =>
        obtain ⟨b, hb, hbv⟩ := vaBase_exists hbase
        refine ⟨_, pickVA_mem hres (by unfold P8.pickVA; rw [hfind, hb]), ?_, rfl, ?_⟩
        · exact hbv
        · exact vaLabel_parse res hres
    · intro res hres
      cases hfind : (P8.videoOnlyOf raw).find? (fun f => f.hasVideo && !f.hasAudio
          && parseLabelHeight f.qualityLabel == jsParseInt res) with
      | some existing =>
        have hpick : P8.pickVO (P8.videoWithAudioOf raw) (P8.videoOnlyOf raw) res
            = some existing := by
          unfold P8.pickVO
          rw [hfind]
        have hp := List.find?_some hfind
        simp only [Bool.and_eq_true, beq_iff_eq, Bool.not_eq_true'] at hp
        exact ⟨existing, pickVO_mem hres hpick, hp.1.1, hp.1.2, hp.2⟩
      | none =>
        obtain ⟨b, hb, hbv⟩ := voBase_exists hbase
        refine ⟨_, pickVO_mem hres (by unfold P8.pickVO; rw [hfind, hb]), ?_, rfl, ?_⟩
        · exact hbv
        · exact voLabel_parse res hres
    · intro res hres hfind
      obtain ⟨b, hb, hbv⟩ := vaBase_exists hbase
      exact ⟨_, pickVA_mem hres (by unfold P8.pickVA; rw [hfind, hb]), rfl, rfl⟩

/-- C3 counterexample: on the empty raw list the gap-filled catalog has no
video entry at all (no with-audio or video-only tier is represented),
while its audio entries exist and carry the cloned default size 3000000,
not a duration-based estimate — refuting the claim's universal video tier
coverage and its audio-placeholder size formula. -/
theorem C3_counterexample :
    (¬ ∃ e ∈ P8.parseFormats [], e.hasVideo = true)
    ∧ (∃ e ∈ P8.parseFormats [], e.hasVideo = false ∧ e.hasAudio = true ∧
        e.filesize = 3000000)
    ∧ (∀ e ∈ P8.parseFormats [], e.hasAudio = true → e.filesize = 3000000) :=
  ⟨by decide, by decide, by decide⟩

/-- C1 (amended): for every single-item request whose chosen format id is
absent from the catalog, or present only under the "placeholder-" prefix,
the part_011 `downloadVideo` rejects with an error outcome and spawns no
download subprocess.  (The youtube.ts iteration performs no such
validation — see the counterexample — and playlist requests bypass it.) -/
theorem C1_placeholder_rejected (catalog : List Format) (opts : DownloadOptions)
    (tempFilePath : String) (o : P11.P11Oracle)
    (h : ∀ f ∈ catalog, f.formatId = some opts.formatId →
      startsWithJs opts.formatId "placeholder-" = true) :
    (P11.downloadVideoSingleRun catalog opts tempFilePath o).downloadSpawns = []
    ∧ ∃ m, (P11.downloadVideoSingleRun catalog opts tempFilePath o).outcome
        = .errorEmitted m := by
  have hcond : (!(catalog.find? (fun f => f.formatId == some opts.formatId)).isSome
      || startsWithJs opts.formatId "placeholder-"
      || startsWithJs opts.formatId "fallback-") = true := by
    cases hfind : catalog.find? (fun f => f.formatId == some opts.formatId) with
    | none => simp [hfind]
    | some f =>
      have hp := List.find?_some hfind
      have hmem := List.mem_of_find?_eq_some hfind
      have hid : f.formatId = some opts.formatId := by simpa using hp
      have hst := h f hmem hid
      simp [hst]
  unfold P11.downloadVideoSingleRun
  rw [if_pos hcond]
  exact ⟨rfl, _, rfl⟩

/-- C1 counterexample: the id "placeholder-mp3-128" is present only as a
synthesized placeholder in the part_008 catalog of the empty raw list, yet
the youtube.ts `downloadVideo` neither fails as invalid input nor skips
the external tool: it spawns the direct-method download subprocess and
reports the streamed outcome. -/
theorem C1_counterexample :
    (∃ e ∈ P8.parseFormats [], e.formatId = some "placeholder-mp3-128")
    ∧ (∀ e ∈ P8.parseFormats [], e.formatId = some "placeholder-mp3-128" →
        startsWithJs "placeholder-mp3-128" "placeholder-" = true)
    ∧ (YT.downloadVideoRun phOpts "/tmp/t.temp" okOracle).spawns.length = 1
    ∧ (YT.downloadVideoRun phOpts "/tmp/t.temp" okOracle).outcome = .streamed := by
  exact ⟨by decide, by decide, rfl, rfl⟩

/-- C1 witness: a placeholder-only catalog rejects its own placeholder id
with no download subprocess. -/
theorem C1_witness :
    (∀ f ∈ phCatalog, f.formatId = some phOpts720.formatId →
      startsWithJs phOpts720.formatId "placeholder-" = true)
    ∧ (P11.downloadVideoSingleRun phCatalog phOpts720 "/tmp/t.temp" p11Oracle).downloadSpawns = []
    ∧ ∃ m, (P11.downloadVideoSingleRun phCatalog phOpts720 "/tmp/t.temp" p11Oracle).outcome
        = .errorEmitted m := by
  have h := C1_placeholder_rejected phCatalog phOpts720 "/tmp/t.temp" p11Oracle (by decide)
  exact ⟨by decide, h.1, h.2⟩

/-- C4: zero files in the working directory yield the terminal failure
event; exactly one file is streamed raw with no zip invocation; two or
more files cause one zip invocation whose inputs are exactly the found
files' paths, and on zip success the archive is streamed. -/
theorem C4_playlist_decision (formatId tempDir zipPath : String) (items : List String)
    (o : YT.PlaylistOracle) :
    (o.files = [] →
      (YT.downloadPlaylistRun formatId tempDir zipPath items o).events
        = [.errorEv "Failed to process playlist download", .endEv]
      ∧ (YT.downloadPlaylistRun formatId tempDir zipPath items o).zipSpawn = none)
    ∧ (∀ f, o.files = [f] →
      (YT.downloadPlaylistRun formatId tempDir zipPath items o).events
        = [.dataEv (tempDir ++ "/" ++ f), .endEv]
      ∧ (YT.downloadPlaylistRun formatId tempDir zipPath items o).zipSpawn = none)
    ∧ (∀ f1 f2 rest, o.files = f1 :: f2 :: rest →
      (YT.downloadPlaylistRun formatId tempDir zipPath items o).zipSpawn
        = some ("-j" :: zipPath :: o.files.map (fun f => tempDir ++ "/" ++ f))
      ∧ (o.zipSpawnErr = false → o.zipCode = 0 →
          (YT.downloadPlaylistRun formatId tempDir zipPath items o).events
            = [.dataEv zipPath, .endEv])) := by
  refine ⟨?_, ?_, ?_⟩
  · intro hf
    unfold YT.downloadPlaylistRun
    rw [hf]
    exact ⟨rfl, rfl⟩
  · intro f hf
    unfold YT.downloadPlaylistRun
    rw [hf]
    exact ⟨rfl, rfl⟩
  · intro f1 f2 rest hf
    unfold YT.downloadPlaylistRun
    rw [hf]
    cases hzse : o.zipSpawnErr with
    | true =>
      refine ⟨rfl, ?_⟩
      intro hz2 _
      simp at hz2
    | false =>
      cases hzc : o.zipCode == 0 with
      | true => exact ⟨rfl, fun _ _ => rfl⟩
      | false =>
        refine ⟨rfl, ?_⟩
        intro _ hcode
        rw [hcode] at hzc
        simp at hzc

/-- C4 witness: two files produce one zip invocation over exactly those
files, whose archive is streamed. -/
theorem C4_witness :
    twoFilesOracle.files = ["a.mp4", "b.mp4"]
    ∧ (YT.downloadPlaylistRun "22" "/tmp/d" "/tmp/p.zip" ["id1", "id2"] twoFilesOracle).zipSpawn
        = some ["-j", "/tmp/p.zip", "/tmp/d/a.mp4", "/tmp/d/b.mp4"]
    ∧ (YT.downloadPlaylistRun "22" "/tmp/d" "/tmp/p.zip" ["id1", "id2"] twoFilesOracle).events
        = [.dataEv "/tmp/p.zip", .endEv] := by
  have h := C4_playlist_decision "22" "/tmp/d" "/tmp/p.zip" ["id1", "id2"] twoFilesOracle
  have h3 := h.2.2 "a.mp4" "b.mp4" [] rfl
  refine ⟨rfl, ?_, h3.2 rfl rfl⟩
  rw [h3.1]
  rfl

/-- C5: the direct strategy is always attempted first; the file strategy is
attempted exactly when the direct strategy fails (non-zero exit or
zero-byte stdout); each strategy is attempted at most once; exhaustion of
both yields the terminal error outcome together with the error event and
end of stream. -/
theorem C5_strategy_order (opts : DownloadOptions) (tmp : String) (o : YT.StratOracle) :
    (YT.downloadVideoRun opts tmp o).attempts.head? = some .direct
    ∧ ((YT.downloadVideoRun opts tmp o).attempts
        = if YT.directMethodFails o then [.direct, .fileBuffered] else [.direct])
    ∧ (YT.downloadVideoRun opts tmp o).attempts.count .direct ≤ 1
    ∧ (YT.downloadVideoRun opts tmp o).attempts.count .fileBuffered ≤ 1
    ∧ (YT.directMethodFails o = true → YT.fileMethodFails o = true →
        (YT.downloadVideoRun opts tmp o).outcome
          = .errorEmitted "YouTube is preventing this download. Try a different format or video."
        ∧ (YT.downloadVideoRun opts tmp o).events
          = [.errorEv "YouTube is preventing this download. Try a different format or video.",
             .endEv]) := by
  unfold YT.downloadVideoRun
  by_cases hd : YT.directMethodFails o = true <;>
    by_cases hf : YT.fileMethodFails o = true <;>
    simp only [hd, hf, if_true, if_false, Bool.false_eq_true] <;>
    refine ⟨rfl, by simp [hd], by decide, by decide, ?_⟩ <;>
    simp

/-- C5 witness: with a zero-byte direct result and a failing file strategy,
the attempts are exactly direct then file-buffered and the outcome is the
terminal error. -/
theorem C5_witness :
    YT.directMethodFails zeroByteOracle = true
    ∧ YT.fileMethodFails zeroByteOracle = true
    ∧ (YT.downloadVideoRun phOpts "/tmp/t.temp" zeroByteOracle).attempts
        = [.direct, .fileBuffered]
    ∧ (YT.downloadVideoRun phOpts "/tmp/t.temp" zeroByteOracle).outcome
        = .errorEmitted "YouTube is preventing this download. Try a different format or video." := by
  have h := C5_strategy_order phOpts "/tmp/t.temp" zeroByteOracle
  refine ⟨by decide, by decide, ?_, (h.2.2.2.2 (by decide) (by decide)).1⟩
  rw [h.2.1]
  decide

/-- C6 (amended): a streamed (successful) youtube.ts request leaves no
temporary file, and the part_011 file method deletes its temporary file on
every exit path, success or failure; universal cleanup fails however on
the youtube.ts failure path of the counterexample. -/
theorem C6_cleanup (o1 : P11.P11Oracle) (opts : DownloadOptions) (tmp : String)
    (o2 : YT.StratOracle) :
    (P11.fileMethodRun o1).2 = false
    ∧ ((YT.downloadVideoRun opts tmp o2).outcome = .streamed →
        (YT.downloadVideoRun opts tmp o2).tempFileRemains = false) := by
  constructor
  · unfold P11.fileMethodRun
    split
    · rfl
    · split
      · rfl
      · rfl
  · intro h
    unfold YT.downloadVideoRun at h ⊢
    by_cases hd : YT.directMethodFails o2 = true
    · by_cases hf : YT.fileMethodFails o2 = true
      · simp only [hd, hf, if_true] at h
        cases h
      · simp only [hd, hf, if_true, if_false, Bool.false_eq_true]
    · simp only [hd, if_false, Bool.false_eq_true]

/-- C6 counterexample: a youtube.ts request whose direct strategy fails and
whose file strategy leaves an empty temporary file rejects the attempt
without unlinking — the failed request strands its temporary file. -/
theorem C6_counterexample :
    (YT.downloadVideoRun phOpts "/tmp/t.temp" zeroByteOracle).outcome ≠ .streamed
    ∧ (YT.downloadVideoRun phOpts "/tmp/t.temp" zeroByteOracle).tempFileRemains = true := by
  exact ⟨by decide, rfl⟩

/-- C6 witness: a healthy part_011 file method and a streamed youtube.ts
request both leave no temporary file. -/
theorem C6_witness :
    (P11.fileMethodRun p11Oracle).2 = false
    ∧ (YT.downloadVideoRun phOpts "/tmp/t.temp" okOracle).outcome = .streamed
    ∧ (YT.downloadVideoRun phOpts "/tmp/t.temp" okOracle).tempFileRemains = false := by
  have h := C6_cleanup p11Oracle phOpts "/tmp/t.temp" okOracle
  exact ⟨h.1, rfl, h.2 rfl⟩

/-- C7 (amended): a request carrying both trim bounds is never rejected for
their ordering.  The schema validates only presence and types, and the
engine spawns the acquisition tool with the clip instruction
"*start-end" rendered verbatim, whatever the order of the bounds. -/
theorem C7_trim_not_validated (r : RawDownloadBody) (vid fid : String) (s e : Nat)
    (tmp : String) (o : YT.StratOracle)
    (h1 : r.videoId = some vid) (h2 : r.formatId = some fid)
    (h3 : r.start = some s) (h4 : r.«end» = some e) :
    (downloadOptionsSchemaParse r).isSome = true
    ∧ (∀ opts, downloadOptionsSchemaParse r = some opts →
        opts.start = some s ∧ opts.«end» = some e
        ∧ ∃ a ∈ (YT.downloadVideoRun opts tmp o).spawns,
            "--download-sections" ∈ a
            ∧ ("*" ++ toString s ++ "-" ++ toString e) ∈ a) := by
  constructor
  · simp only [downloadOptionsSchemaParse, h1, h2, Option.isSome_some]
  · intro opts hopts
    simp only [downloadOptionsSchemaParse, h1, h2, Option.some.injEq] at hopts
    subst hopts
    refine ⟨by simpa using h3, by simpa using h4, ?_⟩
    have hdmem : YT.downloadUsingDirectMethodArgs ("https://www.youtube.com/watch?v=" ++ vid)
        fid r.start r.«end» r.subtitle r.subtitleFormat
        ∈ (YT.downloadVideoRun
            { videoId := vid, formatId := fid, start := r.start, «end» := r.«end»,
              subtitle := r.subtitle, subtitleFormat := r.subtitleFormat,
              downloadAudio := r.downloadAudio, downloadCaptions := r.downloadCaptions,
              isPlaylist := r.isPlaylist, playlistItems := r.playlistItems } tmp o).spawns := by
      unfold YT.downloadVideoRun
      by_cases hd : YT.directMethodFails o = true
      · by_cases hf : YT.fileMethodFails o = true
        · simp [hd, hf]
        · simp [hd, hf]
      · simp [hd]
    refine ⟨_, hdmem, ?_, ?_⟩
    · unfold YT.downloadUsingDirectMethodArgs
      rw [h3, h4]
      exact List.mem_append_left _ (List.mem_append_left _
        (List.mem_append_right _ (by simp)))
    · unfold YT.downloadUsingDirectMethodArgs
      rw [h3, h4]
      exact List.mem_append_left _ (List.mem_append_left _
        (List.mem_append_right _ (by simp)))

/-- C7 counterexample: the body with start 10 and end 5 (end < start)
passes schema validation unchanged, and the engine spawns the acquisition
tool carrying the inverted clip instruction "*10-5" — nothing rejects the
request before the spawn. -/
theorem C7_counterexample :
    downloadOptionsSchemaParse invertedTrimBody = some invertedTrimOpts
    ∧ (YT.downloadVideoRun invertedTrimOpts "/tmp/t.temp" okOracle).spawns.length = 1
    ∧ ∃ a ∈ (YT.downloadVideoRun invertedTrimOpts "/tmp/t.temp" okOracle).spawns,
        "--download-sections" ∈ a ∧ "*10-5" ∈ a := by
  exact ⟨rfl, rfl, by decide⟩

/-- C7 witness: the amended statement applied to the inverted body. -/
theorem C7_witness :
    (downloadOptionsSchemaParse invertedTrimBody).isSome = true
    ∧ (∀ opts, downloadOptionsSchemaParse invertedTrimBody = some opts →
        opts.start = some 10 ∧ opts.«end» = some 5
        ∧ ∃ a ∈ (YT.downloadVideoRun opts "/tmp/t.temp" okOracle).spawns,
            "--download-sections" ∈ a
            ∧ ("*" ++ toString 10 ++ "-" ++ toString 5) ∈ a) :=
  C7_trim_not_validated invertedTrimBody "dQw4w9WgXcQ" "22" 10 5 "/tmp/t.temp" okOracle
    rfl rfl rfl rfl

/-- C10 (amended): the part_011 playlist path always fulfills with a stream
whose events terminate properly — every failure is one error event
followed by end of stream, never an uncaught throw — and the youtube.ts
single-video path converts strategy exhaustion into an error event
followed by end of stream.  The exception is the youtube.ts archive step:
a non-zero zip exit escapes as an uncaught throw with no stream event (see
the counterexample). -/
theorem C10_errors_on_stream (formatId tempDir zipPath : String) (items : List String)
    (o : YT.PlaylistOracle) (opts : DownloadOptions) (tmp : String)
    (o2 : YT.StratOracle) :
    (P11.downloadPlaylistRun formatId tempDir zipPath items o).uncaughtThrow = false
    ∧ ((∃ m, (P11.downloadPlaylistRun formatId tempDir zipPath items o).events
          = [.errorEv m, .endEv])
       ∨ (∃ n, (P11.downloadPlaylistRun formatId tempDir zipPath items o).events
          = [.dataEv n, .endEv]))
    ∧ (YT.directMethodFails o2 = true → YT.fileMethodFails o2 = true →
        (YT.downloadVideoRun opts tmp o2).events
          = [.errorEv "YouTube is preventing this download. Try a different format or video.",
             .endEv]) := by
  refine ⟨?_, ?_, ?_⟩
  · unfold P11.downloadPlaylistRun
    split
    · rfl
    · split
      · rfl
      · rfl
      · split
        · rfl
        · rfl
  · unfold P11.downloadPlaylistRun
    split
    · exact Or.inl ⟨_, rfl⟩
    · split
      · exact Or.inl ⟨_, rfl⟩
      · exact Or.inr ⟨_, rfl⟩
      · split
        · exact Or.inl ⟨_, rfl⟩
        · exact Or.inr ⟨_, rfl⟩
  · intro h1 h2
    unfold YT.downloadVideoRun
    simp only [h1, h2, if_true]

/-- C10 counterexample: on a two-file playlist whose zip utility exits
non-zero, the youtube.ts playlist path raises an uncaught exception and
delivers no event at all on the returned stream — neither an error event
nor end of stream. -/
theorem C10_counterexample :
    (YT.downloadPlaylistRun "22" "/tmp/d" "/tmp/p.zip" ["id1", "id2"] zipFailOracle).uncaughtThrow
      = true
    ∧ (YT.downloadPlaylistRun "22" "/tmp/d" "/tmp/p.zip" ["id1", "id2"] zipFailOracle).events
      = [] := by
  exact ⟨rfl, rfl⟩

/-- C10 witness: the part_011 playlist path absorbs the same zip failure
into a stream error event, and the exhausted youtube.ts single-video path
emits its error event followed by end of stream. -/
theorem C10_witness :
    YT.directMethodFails zeroByteOracle = true
    ∧ YT.fileMethodFails zeroByteOracle = true
    ∧ (P11.downloadPlaylistRun "22" "/tmp/d" "/tmp/p.zip" ["id1", "id2"] zipFailOracle).uncaughtThrow
        = false
    ∧ (YT.downloadVideoRun phOpts "/tmp/t.temp" zeroByteOracle).events
        = [.errorEv "YouTube is preventing this download. Try a different format or video.",
           .endEv] := by
  have h := C10_errors_on_stream "22" "/tmp/d" "/tmp/p.zip" ["id1", "id2"] zipFailOracle
    phOpts "/tmp/t.temp" zeroByteOracle
  exact ⟨by decide, by decide, h.1, h.2.2 (by decide) (by decide)⟩

/-- C8: `get` returns the stored value exactly when the key is present and
its expiry time has not passed, and otherwise reports a miss; `set` at
capacity evicts the oldest-inserted entry (the head of the insertion
order) before inserting the new one. -/
theorem C8_cache_get_put {α : Type} (c : SimpleCache α) (k : String) (now : Nat)
    (v : α) (ttl : Nat) (hpos : 0 < c.maxSize) (hcap : c.maxSize ≤ c.cache.length) :
    (∀ x : α, (c.get k now).1 = some x ↔
      ∃ expires, mapGet k c.cache = some (x, expires) ∧ ¬ expires < now)
    ∧ (c.set k v ttl now).cache = mapSet k (v, now + ttl) c.cache.tail := by
  constructor
  · intro x
    constructor
    · intro h
      unfold SimpleCache.get at h
      cases hg : mapGet k c.cache with
      | none =>
        rw [hg] at h
        simp at h
      | some p =>
        obtain ⟨val, expires⟩ := p
        rw [hg] at h
        dsimp only at h
        by_cases he : expires < now
        · rw [if_pos he] at h
          simp at h
        · rw [if_neg he] at h
          simp only [Option.some.injEq] at h
          subst h
          exact ⟨expires, rfl, he⟩
    · rintro ⟨expires, hg, he⟩
      unfold SimpleCache.get
      rw [hg]
      dsimp only
      rw [if_neg he]
  · have hne : c.cache ≠ [] := by
      intro h0
      rw [h0] at hcap
      simp at hcap
      omega
    obtain ⟨entry, rest, hc⟩ : ∃ entry rest, c.cache = entry :: rest := by
      cases hx : c.cache with
      | nil => exact absurd hx hne
      | cons entry rest => exact ⟨entry, rest, rfl⟩
    unfold SimpleCache.set
    rw [if_pos hcap, hc]
    simp only [List.head?_cons, List.tail_cons]
    rw [mapDelete]
    simp

/-- C8 witness: on a two-entry cache at capacity, the unexpired entry is
returned and insertion evicts the head. -/
theorem C8_witness :
    0 < cacheEx.maxSize ∧ cacheEx.maxSize ≤ cacheEx.cache.length
    ∧ ((cacheEx.get "a" 500).1 = some 1 ↔
        ∃ expires, mapGet "a" cacheEx.cache = some (1, expires) ∧ ¬ expires < 500)
    ∧ (cacheEx.set "c" 3 100 500).cache = mapSet "c" (3, 500 + 100) cacheEx.cache.tail := by
  have h := C8_cache_get_put cacheEx "c" 500 3 100 (by decide) (by decide)
  have h2 := C8_cache_get_put cacheEx "a" 500 3 100 (by decide) (by decide)
  exact ⟨by decide, by decide, h2.1 1, h.2⟩

/-- The progress-fold invariant holds at the start of an attempt. -/
theorem progressInv_start (t0 : Nat) : ProgressInv ⟨t0, 0, []⟩ := by
  refine ⟨List.chain'_nil, List.chain'_nil, ?_, ?_, by norm_num⟩ <;>
    intro e he <;> simp at he

/-- One chunk preserves the progress-fold invariant, provided its parsed
percent (if any) is at most 100. -/
theorem progressChunkStep_inv (s : ProgressState) (t : Nat) (parsed : Option ℚ)
    (hb : ∀ p : ℚ, parsed = some p → p ≤ 100)
    (h : ProgressInv s) : ProgressInv (progressChunkStep s t parsed) := by
  obtain ⟨h1, h2, h3, h4, h5⟩ := h
  unfold progressChunkStep
  by_cases hgate : 500 < t - s.lastPU
  · rw [if_pos hgate]
    have hlt : s.lastPU + 500 < t := by omega
    cases parsed with
    | none =>
      dsimp only
      exact ⟨h1, h2, fun e he => le_trans (h3 e he) (show s.lastPU ≤ t by omega), h4, h5⟩
    | some p =>
      dsimp only
      have hp : p ≤ 100 := hb p rfl
      by_cases hguard : 1 ≤ p - s.lastProgress ∨ p = 100
      · rw [if_pos hguard]
        have hple : ∀ e ∈ s.emits, e.2 ≤ p := by
          intro e he
          rcases hguard with hg | hg
          · have hlp : s.lastProgress < p := by linarith
            exact le_of_lt (lt_of_le_of_lt (h4 e he) hlp)
          · rw [hg]
            exact le_trans (h4 e he) h5
        refine ⟨?_, ?_, ?_, ?_, hp⟩
        · refine List.Chain'.append h1 (List.chain'_singleton _) ?_
          intro x hx y hy
          simp only [List.head?_cons, Option.mem_def, Option.some.injEq] at hy
          subst hy
          have hxm : x ∈ s.emits := List.mem_of_mem_getLast? hx
          have := h3 x hxm
          omega
        · refine List.Chain'.append h2 (List.chain'_singleton _) ?_
          intro x hx y hy
          simp only [List.head?_cons, Option.mem_def, Option.some.injEq] at hy
          subst hy
          exact hple x (List.mem_of_mem_getLast? hx)
        · intro e he
          rcases List.mem_append.mp he with he2 | he2
          · exact le_trans (h3 e he2) (show s.lastPU ≤ t by omega)
          · simp only [List.mem_singleton] at he2
            subst he2
            exact le_refl _
        · intro e he
          rcases List.mem_append.mp he with he2 | he2
          · exact hple e he2
          · simp only [List.mem_singleton] at he2
            subst he2
            exact le_refl _
      · rw [if_neg hguard]
        exact ⟨h1, h2, fun e he => le_trans (h3 e he) (show s.lastPU ≤ t by omega), h4, h5⟩
  · rw [if_neg hgate]
    exact ⟨h1, h2, h3, h4, h5⟩

/-- The whole fold preserves the progress invariant. -/
theorem foldl_progress_inv (chunks : List (Nat × Option ℚ)) (s : ProgressState)
    (hb : ∀ c ∈ chunks, ∀ p : ℚ, c.2 = some p → p ≤ 100)
    (hs : ProgressInv s) :
    ProgressInv (chunks.foldl (fun s c => progressChunkStep s c.1 c.2) s) := by
  induction chunks generalizing s with
  | nil => exact hs
  | cons c rest ih =>
    simp only [List.foldl_cons]
    exact ih _ (fun c2 h2 => hb c2 (List.mem_cons_of_mem _ h2))
      (progressChunkStep_inv s c.1 c.2 (fun p hp => hb c (List.mem_cons_self _ _) p hp) hs)

/-- C9 (amended): within one attempt whose parsed percents stay within
100, the emitted progress events are monotonically non-decreasing in
percent; the chunk-driven (non-final) emissions are pairwise separated by
more than 500ms of wall time; and a successful attempt's final emission is
exactly 100 percent, delivered regardless of throttling. -/
theorem C9_progress (t0 : Nat) (chunks : List (Nat × Option ℚ)) (tc : Nat) (code : Int)
    (hb : ∀ c ∈ chunks, ∀ p : ℚ, c.2 = some p → p ≤ 100) :
    List.Chain' (fun a b : Nat × ℚ => a.2 ≤ b.2) (runAttempt t0 chunks tc code)
    ∧ List.Chain' (fun a b : Nat × ℚ => a.1 + 500 < b.1) (runAttemptState t0 chunks).emits
    ∧ (code = 0 → (runAttempt t0 chunks tc code).getLast? = some (tc, 100)) := by
  have hinv : ProgressInv (runAttemptState t0 chunks) :=
    foldl_progress_inv chunks ⟨t0, 0, []⟩ hb (progressInv_start t0)
  obtain ⟨h1, h2, h3, h4, h5⟩ := hinv
  refine ⟨?_, h1, ?_⟩
  · unfold runAttempt
    by_cases hc : code = 0
    · rw [if_pos hc]
      refine List.Chain'.append h2 (List.chain'_singleton _) ?_
      intro x hx y hy
      simp only [List.head?_cons, Option.mem_def, Option.some.injEq] at hy
      subst hy
      exact le_trans (h4 x (List.mem_of_mem_getLast? hx)) h5
    · rw [if_neg hc]
      exact h2
  · intro hc
    unfold runAttempt
    rw [if_pos hc, List.getLast?_concat]

/-- C9 counterexample: a progress line reporting more than 100 percent
(yt-dlp prints such lines when its size estimate is low, e.g.
"150.0% of 10.0MiB at 1.0MiB/s ETA 00:01", which matches the first
progress pattern) is forwarded, and the final success event then reports
exactly 100 — a decrease, so the emitted percents are not monotonically
non-decreasing as the claim states. -/
theorem C9_counterexample :
    runAttempt 0 [(1000, some 150)] 1500 0 = [(1000, 150), (1500, 100)]
    ∧ ¬ List.Chain' (fun a b : Nat × ℚ => a.2 ≤ b.2)
        (runAttempt 0 [(1000, some 150)] 1500 0) := by
  have heq : runAttempt 0 [(1000, some 150)] 1500 0 = [(1000, 150), (1500, 100)] := by
    norm_num [runAttempt, runAttemptState, progressChunkStep]
  refine ⟨heq, ?_⟩
  rw [heq]
  norm_num [List.chain'_cons, List.chain'_singleton]

/-- C9 witness: a well-formed attempt trace (percents within 100) emits
monotone, throttle-spaced events ending at exactly 100. -/
theorem C9_witness :
    (∀ c ∈ [((1000 : Nat), some (50 : ℚ)), (2000, some 80)], ∀ p : ℚ, c.2 = some p → p ≤ 100)
    ∧ List.Chain' (fun a b : Nat × ℚ => a.2 ≤ b.2)
        (runAttempt 0 [(1000, some 50), (2000, some 80)] 2100 0)
    ∧ (runAttempt 0 [(1000, some 50), (2000, some 80)] 2100 0).getLast? = some (2100, 100) := by
  have hb : ∀ c ∈ [((1000 : Nat), some (50 : ℚ)), (2000, some 80)], ∀ p : ℚ,
      c.2 = some p → p ≤ 100 := by
    intro c hc p hp
    rcases List.mem_cons.mp hc with rfl | hc2
    · simp at hp
      subst hp
      norm_num
    · rcases List.mem_cons.mp hc2 with rfl | hc3
      · simp at hp
        subst hp
        norm_num
      · simp at hc3
  have h := C9_progress 0 [(1000, some 50), (2000, some 80)] 2100 0 hb
  exact ⟨hb, h.1, h.2.2 rfl⟩

/-- C3 witness: on the video-free empty raw list every audio bitrate is
still covered by the cloned-size placeholder, and the raw list
[rawVid720] yields a surviving video entry whose gap-filled catalog
covers the 2160p with-audio tier. -/
theorem C3_witness :
    (∃ e ∈ P8.parseFormats [], e.hasVideo = false ∧ e.hasAudio = true ∧
        includes e.qualityLabel ("128" ++ "kbps") = true)
    ∧ (∃ e ∈ P8.parseFormats [],
        e.formatId = some ("placeholder-mp3-" ++ "128") ∧
        e.filesize = (match (P8.audioOnlyOf ([] : List RawFormat)).head? with
          | some f => f.filesize
          | none => 3000000))
    ∧ (P8.videoWithAudioOf [rawVid720] ≠ [] ∨ P8.videoOnlyOf [rawVid720] ≠ [])
    ∧ (∃ e ∈ P8.parseFormats [rawVid720], e.hasVideo = true ∧ e.hasAudio = true ∧
        parseLabelHeight e.qualityLabel = jsParseInt "2160p") := by
  have h0 := C3_gap_fill []
  have h := C3_gap_fill [rawVid720]
  exact ⟨h0.1 "128" (by decide), h0.2.1 "128" (by decide) (by decide), by decide,
    (h.2.2 (by decide)).1 "2160p" (by decide)⟩

end VG
